import Mathlib

/-!
Verification of the client-side graph state and visualization engine of the
codebase-refactor-tool repository.  The definitions below are a shallow
embedding of `src/renderer/components/Graph/GraphVisualizer.jsx` and
`src/renderer/hooks/useGraph.js`: node/link data model, the filter
derivation `filteredData`, the highlight logic, the WebSocket connection
handlers, and the request/response operations of the `useGraph` hook.
The Redux reducer that applies incremental graph deltas lives in
`src/renderer/store` which is not part of the sources at hand; it is
modelled from the specification where needed.
-/

namespace RefactorTool

/-- A graph node as produced by the backend: `id`, `type` (a literal tag
string such as "File", "Class", "Method", "Function", "LintError"), and the
`properties.name` / `properties.path` fields consulted by the search filter
(`none` models an absent property, read as `''` via `?.` plus `|| ''`). -/
structure Node where
  id : String
  type : String
  name : Option String := none
  path : Option String := none
  deriving Repr, DecidableEq

/-- A link endpoint as stored in `link.source` / `link.target`: either a bare
id string or an embedded node reference (d3's force layout rewrites bare ids
into node objects, so consumers must accept both forms). -/
inductive Endpoint where
  | idStr (s : String)
  | ref (n : Node)
  deriving Repr, DecidableEq

/-- A graph link: two endpoints and a relationship tag string such as
"CONTAINS", "HAS_METHOD", "CALLS", "HAS_ERROR". -/
structure Link where
  source : Endpoint
  target : Endpoint
  type : String
  deriving Repr, DecidableEq

/-- The graph snapshot held in the store: `{ nodes, links }`. -/
structure GraphData where
  nodes : List Node
  links : List Link
  deriving Repr, DecidableEq

/-- The filter state of `GraphVisualizer`: `nodeTypes`, `showErrors`,
`showCalls`, `searchTerm`. -/
structure Filters where
  nodeTypes : List String
  showErrors : Bool
  showCalls : Bool
  searchTerm : String
  deriving Repr, DecidableEq

/-- The JavaScript expression `e.id || e` evaluated where the result is then
compared against id strings (membership in a `Set` of ids, `===` with an id).
For a bare string the `.id` property is `undefined`, so the string itself is
used.  For an embedded node object the object's `id` is used unless it is the
empty string (falsy), in which case the expression yields the object itself,
which never equals any id string: modelled as `none`. -/
def resolveEndpoint : Endpoint → Option String
  | .idStr s => some s
  | .ref n => if n.id = "" then none else some n.id

/-- Normalization as the specification words it: an endpoint given as an
embedded node reference is normalized to its id, a bare id stands for
itself.  (Differs from `resolveEndpoint` only on a reference whose id is the
empty string.) -/
def specNormalize : Endpoint → String
  | .idStr s => s
  | .ref n => n.id

/-- Auxiliary for `strIncludes`: scan the haystack for a position where the
needle is a prefix. -/
def strIncludesAux (needle : List Char) : List Char → Bool
  | [] => needle.isEmpty
  | c :: t => if needle.isPrefixOf (c :: t) then true else strIncludesAux needle t

/-- JavaScript `hay.includes(needle)`: substring containment. -/
def strIncludes (hay needle : String) : Bool :=
  strIncludesAux needle.data hay.data

/-- JavaScript `s.toLowerCase()` on the character range the embedding
considers: lower-case each character. -/
def toLower (s : String) : String :=
  ⟨s.data.map Char.toLower⟩

/-- The node predicate of `filteredData` (GraphVisualizer.jsx lines 61-79):
type must be in `filters.nodeTypes`; when `searchTerm` is non-empty (truthy)
the lowercased name or path must contain the lowercased term; LintError
nodes are dropped when `showErrors` is off. -/
def nodePasses (f : Filters) (n : Node) : Bool :=
  if !(f.nodeTypes.contains n.type) then false
  else if f.searchTerm != "" &&
      !(strIncludes (toLower (n.name.getD "")) (toLower f.searchTerm)) &&
      !(strIncludes (toLower (n.path.getD "")) (toLower f.searchTerm)) then false
  else if !f.showErrors && n.type == "LintError" then false
  else true

/-- The membership test `nodeIds.has(link.source.id || link.source)` against the set of
surviving node ids. -/
def endpointVisible (ids : List String) (e : Endpoint) : Bool :=
  match resolveEndpoint e with
  | some s => ids.contains s
  | none => false

/-- The link predicate of `filteredData` (GraphVisualizer.jsx lines 83-94):
both endpoints must resolve into the surviving node-id set, and CALLS links
are dropped when `showCalls` is off. -/
def linkPasses (f : Filters) (ids : List String) (l : Link) : Bool :=
  if !(endpointVisible ids l.source) || !(endpointVisible ids l.target) then false
  else if !f.showCalls && l.type == "CALLS" then false
  else true

/-- The derivation `filteredData` (GraphVisualizer.jsx lines 58-97): with no snapshot the
result is empty; otherwise nodes are filtered by `nodePasses`, their ids
collected, and links filtered by `linkPasses` against that id set. -/
def filteredData (graphData : Option GraphData) (f : Filters) : GraphData :=
  match graphData with
  | none => ⟨[], []⟩
  | some gd =>
    let nodes := gd.nodes.filter (nodePasses f)
    let nodeIds := nodes.map (fun n => n.id)
    let links := gd.links.filter (linkPasses f nodeIds)
    ⟨nodes, links⟩

/-- The spec-side node condition of claim C3, written from the claim's words:
type in the allowed set, empty search term or case-insensitive containment in
name or path, and the LintError gate. -/
def specNodeVisible (f : Filters) (n : Node) : Prop :=
  n.type ∈ f.nodeTypes ∧
  (f.searchTerm = "" ∨
    strIncludes (toLower (n.name.getD "")) (toLower f.searchTerm) = true ∨
    strIncludes (toLower (n.path.getD "")) (toLower f.searchTerm) = true) ∧
  (f.showErrors = true ∨ n.type ≠ "LintError")

theorem nodePasses_iff (f : Filters) (n : Node) :
    nodePasses f n = true ↔ specNodeVisible f n := by
  have hmem : f.nodeTypes.contains n.type = true ↔ n.type ∈ f.nodeTypes := by
    simp [List.contains, List.elem_iff]
  simp only [nodePasses, specNodeVisible, ← hmem]
  cases hc : f.nodeTypes.contains n.type <;>
    cases hterm : f.searchTerm == "" <;>
      cases hname : strIncludes (toLower (n.name.getD "")) (toLower f.searchTerm) <;>
        cases hpath : strIncludes (toLower (n.path.getD "")) (toLower f.searchTerm) <;>
          cases herr : f.showErrors <;>
            cases hlint : n.type == "LintError" <;>
              simp_all [bne, beq_iff_eq]

/-- C10: when no snapshot is present (`graphData` is null), `filteredData`
returns an empty node list and an empty link list for every filter state. -/
theorem C10_no_snapshot_empty (f : Filters) :
    (filteredData none f).nodes = [] ∧ (filteredData none f).links = [] :=
  ⟨rfl, rfl⟩

theorem mem_filteredData_nodes (gd : GraphData) (f : Filters) (n : Node) :
    n ∈ (filteredData (some gd) f).nodes ↔ n ∈ gd.nodes ∧ specNodeVisible f n := by
  show n ∈ gd.nodes.filter (nodePasses f) ↔ _
  rw [List.mem_filter, nodePasses_iff]

/-- C3: a node is in the filtered view iff it is in the snapshot, its type is
in the allowed node-type set, the search term is empty or the node's name or
path contains it case-insensitively, and (showErrors or the type is not
LintError). -/
theorem C3_node_visibility (gd : GraphData) (f : Filters) (n : Node) :
    n ∈ (filteredData (some gd) f).nodes ↔ n ∈ gd.nodes ∧ specNodeVisible f n :=
  mem_filteredData_nodes gd f n

/-- An endpoint whose embedded reference (if any) carries a non-empty id:
on such endpoints the code's `e.id || e` resolution agrees with the spec's
normalization to the id. -/
def endpointRefOk : Endpoint → Bool
  | .idStr _ => true
  | .ref n => n.id != ""

theorem resolveEndpoint_of_ok (e : Endpoint) (h : endpointRefOk e = true) :
    resolveEndpoint e = some (specNormalize e) := by
  cases e with
  | idStr s => rfl
  | ref n =>
    simp only [endpointRefOk, bne_iff_ne, ne_eq] at h
    simp [resolveEndpoint, specNormalize, h]

/-- The node-id set of the filtered view (the `nodeIds` set of
GraphVisualizer.jsx line 81). -/
def viewNodeIds (gd : GraphData) (f : Filters) : List String :=
  (filteredData (some gd) f).nodes.map (fun n => n.id)

/-- The initial filter state of `GraphVisualizer` (lines 16-21). -/
def initialFilters : Filters :=
  { nodeTypes := ["File", "Class", "Method", "Function", "LintError"],
    showErrors := true, showCalls := true, searchTerm := "" }

theorem linkPasses_iff (f : Filters) (ids : List String) (l : Link)
    (hs : endpointRefOk l.source = true) (ht : endpointRefOk l.target = true) :
    linkPasses f ids l = true ↔
      specNormalize l.source ∈ ids ∧ specNormalize l.target ∈ ids ∧
        (f.showCalls = true ∨ l.type ≠ "CALLS") := by
  have h1 : ids.contains (specNormalize l.source) = true ↔ specNormalize l.source ∈ ids := by
    simp [List.contains, List.elem_iff]
  have h2 : ids.contains (specNormalize l.target) = true ↔ specNormalize l.target ∈ ids := by
    simp [List.contains, List.elem_iff]
  simp only [linkPasses, endpointVisible, resolveEndpoint_of_ok _ hs,
    resolveEndpoint_of_ok _ ht, ← h1, ← h2]
  cases hcs : ids.contains (specNormalize l.source) <;>
    cases hct : ids.contains (specNormalize l.target) <;>
      cases hcalls : f.showCalls <;>
        cases htyp : l.type == "CALLS" <;>
          simp_all [beq_iff_eq]

/-- A node whose id is the empty string: legal per the data model (ids are
arbitrary unique strings) but falsy in JavaScript. -/
def emptyIdNode : Node := { id := "", type := "File" }

/-- A link whose endpoints are embedded references to `emptyIdNode`. -/
def emptyRefLink : Link :=
  { source := .ref emptyIdNode, target := .ref emptyIdNode, type := "CONTAINS" }

def emptyRefGraph : GraphData := { nodes := [emptyIdNode], links := [emptyRefLink] }

/-- C2 as stated is false: a link whose embedded endpoint references have the
empty id normalizes (per the claim) to endpoints present in the view, and it
passes the showCalls gate, yet `filteredData` drops it, because
`link.source.id || link.source` falls through to the object when the id is
falsy and the object is never a member of the id set. -/
theorem C2_counterexample :
    (emptyRefLink ∈ emptyRefGraph.links ∧
      specNormalize emptyRefLink.source ∈ viewNodeIds emptyRefGraph initialFilters ∧
      specNormalize emptyRefLink.target ∈ viewNodeIds emptyRefGraph initialFilters ∧
      (initialFilters.showCalls = true ∨ emptyRefLink.type ≠ "CALLS")) ∧
    emptyRefLink ∉ (filteredData (some emptyRefGraph) initialFilters).links := by
  decide

/-- C2 amended: for links whose embedded endpoint references carry non-empty
ids, a link is in the filtered view iff it is in the snapshot, both
normalized endpoint ids are in the view's node-id set, and (showCalls or the
link type is not CALLS). -/
theorem C2_link_visibility (gd : GraphData) (f : Filters) (l : Link)
    (hs : endpointRefOk l.source = true) (ht : endpointRefOk l.target = true) :
    l ∈ (filteredData (some gd) f).links ↔
      l ∈ gd.links ∧ specNormalize l.source ∈ viewNodeIds gd f ∧
        specNormalize l.target ∈ viewNodeIds gd f ∧
        (f.showCalls = true ∨ l.type ≠ "CALLS") := by
  show l ∈ gd.links.filter
      (linkPasses f ((gd.nodes.filter (nodePasses f)).map (fun n => n.id))) ↔ _
  have hids : viewNodeIds gd f = (gd.nodes.filter (nodePasses f)).map (fun n => n.id) := rfl
  rw [List.mem_filter, hids, linkPasses_iff f _ l hs ht]

def nodeA : Node := { id := "a", type := "File", name := some "a.js", path := some "src/a.js" }

def nodeB : Node := { id := "b", type := "Class", name := some "B", path := some "src/a.js" }

def linkAB : Link := { source := .idStr "a", target := .ref nodeB, type := "CONTAINS" }

def graphAB : GraphData := { nodes := [nodeA, nodeB], links := [linkAB] }

theorem C2_witness :
    endpointRefOk linkAB.source = true ∧ endpointRefOk linkAB.target = true ∧
    (linkAB ∈ (filteredData (some graphAB) initialFilters).links ↔
      linkAB ∈ graphAB.links ∧
        specNormalize linkAB.source ∈ viewNodeIds graphAB initialFilters ∧
        specNormalize linkAB.target ∈ viewNodeIds graphAB initialFilters ∧
        (initialFilters.showCalls = true ∨ linkAB.type ≠ "CALLS")) :=
  ⟨by decide, by decide,
    C2_link_visibility graphAB initialFilters linkAB (by decide) (by decide)⟩

def nodeNamedA : Node := { id := "n1", type := "File", name := some "a", path := some "" }

def searchGraph : GraphData := { nodes := [nodeNamedA], links := [] }

def filtersTermB : Filters := { initialFilters with searchTerm := "b" }

def filtersTermA : Filters := { initialFilters with searchTerm := "a" }

/-- C9 as stated is false: starting from searchTerm "b" (which hides the node
named "a") and changing only the searchTerm to "a" ADDS the node to the view,
so a searchTerm change does not merely remove nodes relative to an arbitrary
old result. -/
theorem C9_counterexample :
    filtersTermB.nodeTypes = filtersTermA.nodeTypes ∧
    filtersTermB.showErrors = filtersTermA.showErrors ∧
    filtersTermB.showCalls = filtersTermA.showCalls ∧
    nodeNamedA ∈ (filteredData (some searchGraph) filtersTermA).nodes ∧
    nodeNamedA ∉ (filteredData (some searchGraph) filtersTermB).nodes := by
  decide

/-- C9 amended: relative to the result under an EMPTY old searchTerm,
changing only the searchTerm never adds nodes; a node of the old result is
in the new result iff its lowercased name or path contains the new
lowercased term (or the new term is empty). -/
theorem C9_search_refines (gd : GraphData) (fOld fNew : Filters)
    (hTypes : fNew.nodeTypes = fOld.nodeTypes)
    (hErr : fNew.showErrors = fOld.showErrors)
    (_hCalls : fNew.showCalls = fOld.showCalls)
    (hTerm : fOld.searchTerm = "") :
    (∀ n, n ∈ (filteredData (some gd) fNew).nodes →
      n ∈ (filteredData (some gd) fOld).nodes) ∧
    (∀ n, n ∈ (filteredData (some gd) fOld).nodes →
      (n ∈ (filteredData (some gd) fNew).nodes ↔
        fNew.searchTerm = "" ∨
          strIncludes (toLower (n.name.getD "")) (toLower fNew.searchTerm) = true ∨
          strIncludes (toLower (n.path.getD "")) (toLower fNew.searchTerm) = true)) := by
  constructor
  · intro n hn
    rw [mem_filteredData_nodes] at hn ⊢
    obtain ⟨hgd, htype, _, herrs⟩ := hn
    exact ⟨hgd, hTypes ▸ htype, Or.inl hTerm, hErr ▸ herrs⟩
  · intro n hn
    rw [mem_filteredData_nodes] at hn
    obtain ⟨hgd, htype, _, herrs⟩ := hn
    rw [mem_filteredData_nodes]
    constructor
    · rintro ⟨-, -, hsearch, -⟩
      exact hsearch
    · intro hsearch
      exact ⟨hgd, hTypes.symm ▸ htype, hsearch, hErr.symm ▸ herrs⟩

theorem C9_witness :
    filtersTermA.nodeTypes = initialFilters.nodeTypes ∧
    initialFilters.searchTerm = "" ∧
    (nodeNamedA ∈ (filteredData (some searchGraph) filtersTermA).nodes →
      nodeNamedA ∈ (filteredData (some searchGraph) initialFilters).nodes) :=
  ⟨rfl, rfl,
    (C9_search_refines searchGraph initialFilters filtersTermA rfl rfl rfl rfl).1 nodeNamedA⟩

/-- Modelled from the spec: the incremental graph deltas dispatched by
`useGraph.js` (lines 199-229: ADD_GRAPH_NODE, REMOVE_GRAPH_NODE,
ADD_GRAPH_LINK, REMOVE_GRAPH_LINK).  The reducer that applies them lives in
`src/renderer/store`, which is not among the sources at hand; the kinds are
those of spec sections 4.1 and 6. -/
inductive Delta where
  | node_added (n : Node)
  | node_removed (nodeId : String)
  | link_added (l : Link)
  | link_removed (l : Link)
  deriving Repr, DecidableEq

/-- A link references a node id when either endpoint normalizes to that id. -/
def linkRefersTo (nodeId : String) (l : Link) : Bool :=
  specNormalize l.source == nodeId || specNormalize l.target == nodeId

/-- An endpoint's normalized id is present in the snapshot's node set. -/
def endpointPresent (gd : GraphData) (e : Endpoint) : Bool :=
  gd.nodes.any (fun n => n.id == specNormalize e)

/-- Modelled from the spec: `applyDelta` of the GraphStateStore (spec
section 4.1).  The reducer itself is in `src/renderer/store` and not among
the sources at hand.  Per the spec: node_added inserts, no-op if the id is
already present; node_removed removes the node and every link referencing
it; link_added inserts unless an endpoint id is absent (then dropped);
link_removed removes the matching link by (source id, target id, type). -/
def applyDelta (gd : GraphData) : Delta → GraphData
  | .node_added n =>
    if gd.nodes.any (fun m => m.id == n.id) then gd
    else { gd with nodes := gd.nodes ++ [n] }
  | .node_removed i =>
    { nodes := gd.nodes.filter (fun m => !(m.id == i)),
      links := gd.links.filter (fun l => !(linkRefersTo i l)) }
  | .link_added l =>
    if endpointPresent gd l.source && endpointPresent gd l.target then
      { gd with links := gd.links ++ [l] }
    else gd
  | .link_removed l =>
    { gd with links := gd.links.filter (fun l2 =>
        !(specNormalize l2.source == specNormalize l.source &&
          specNormalize l2.target == specNormalize l.target &&
          l2.type == l.type)) }

/-- A sequence of deltas applied left to right. -/
def applyDeltas (gd : GraphData) (ds : List Delta) : GraphData :=
  ds.foldl applyDelta gd

/-- The link invariant of the snapshot (spec section 3): every link's
endpoints resolve to a node present in the same snapshot. -/
def linkInvariant (gd : GraphData) : Prop :=
  ∀ l ∈ gd.links,
    (∃ n ∈ gd.nodes, n.id = specNormalize l.source) ∧
    (∃ n ∈ gd.nodes, n.id = specNormalize l.target)

theorem applyDelta_invariant (gd : GraphData) (d : Delta) (h : linkInvariant gd) :
    linkInvariant (applyDelta gd d) := by
  cases d with
  | node_added n =>
    by_cases hp : gd.nodes.any (fun m => m.id == n.id) = true
    · simpa [applyDelta, hp] using h
    · rw [Bool.not_eq_true] at hp
      intro l hl
      simp only [applyDelta, hp, Bool.false_eq_true, if_false] at hl ⊢
      obtain ⟨⟨ns, hns, hids⟩, ⟨nt, hnt, hidt⟩⟩ := h l hl
      exact ⟨⟨ns, List.mem_append_left _ hns, hids⟩,
             ⟨nt, List.mem_append_left _ hnt, hidt⟩⟩
  | node_removed i =>
    intro l hl
    simp only [applyDelta] at hl ⊢
    rw [List.mem_filter] at hl
    obtain ⟨hl, href⟩ := hl
    simp only [Bool.not_eq_true', linkRefersTo, Bool.or_eq_false_iff,
      beq_eq_false_iff_ne, ne_eq] at href
    obtain ⟨⟨ns, hns, hids⟩, ⟨nt, hnt, hidt⟩⟩ := h l hl
    refine ⟨⟨ns, ?_, hids⟩, ⟨nt, ?_, hidt⟩⟩
    · rw [List.mem_filter]
      exact ⟨hns, by simp [hids, href.1]⟩
    · rw [List.mem_filter]
      exact ⟨hnt, by simp [hidt, href.2]⟩
  | link_added l0 =>
    by_cases hp : (endpointPresent gd l0.source && endpointPresent gd l0.target) = true
    · intro l hl
      simp only [applyDelta, hp, if_true] at hl ⊢
      rw [List.mem_append] at hl
      rcases hl with hl | hl
      · exact h l hl
      · rw [List.mem_singleton] at hl
        subst hl
        rw [Bool.and_eq_true] at hp
        obtain ⟨hsrc, htgt⟩ := hp
        simp only [endpointPresent, List.any_eq_true, beq_iff_eq] at hsrc htgt
        exact ⟨hsrc, htgt⟩
    · rw [Bool.not_eq_true] at hp
      simpa [applyDelta, hp] using h
  | link_removed l0 =>
    intro l hl
    simp only [applyDelta] at hl ⊢
    rw [List.mem_filter] at hl
    exact h l hl.1

/-- C1: every delta sequence applied to a snapshot satisfying the link
invariant yields a snapshot satisfying it again; in particular a
node_removed delta leaves no link referencing the removed id. -/
theorem C1_delta_invariant (gd : GraphData) (ds : List Delta)
    (h : linkInvariant gd) :
    linkInvariant (applyDeltas gd ds) ∧
    ∀ i l, l ∈ (applyDelta gd (.node_removed i)).links → linkRefersTo i l = false := by
  constructor
  · induction ds generalizing gd with
    | nil => exact h
    | cons d ds ih => exact ih (applyDelta gd d) (applyDelta_invariant gd d h)
  · intro i l hl
    simp only [applyDelta] at hl
    rw [List.mem_filter] at hl
    simpa using hl.2

theorem C1_witness :
    linkInvariant graphAB ∧
    linkInvariant (applyDeltas graphAB [Delta.node_removed "b", Delta.link_added linkAB]) :=
  ⟨by unfold linkInvariant; decide,
    (C1_delta_invariant graphAB [Delta.node_removed "b", Delta.link_added linkAB]
      (by unfold linkInvariant; decide)).1⟩

/-- C7: applying node_added for an id already present is a no-op, and
applying node_added for the same node twice yields the same snapshot as
applying it once. -/
theorem C7_node_added_idempotent (gd : GraphData) (n : Node) :
    (gd.nodes.any (fun m => m.id == n.id) = true → applyDelta gd (.node_added n) = gd) ∧
    applyDelta (applyDelta gd (.node_added n)) (.node_added n) =
      applyDelta gd (.node_added n) := by
  constructor
  · intro h
    simp [applyDelta, h]
  · by_cases h : gd.nodes.any (fun m => m.id == n.id) = true
    · simp [applyDelta, h]
    · rw [Bool.not_eq_true] at h
      have h2 : (gd.nodes ++ [n]).any (fun m => m.id == n.id) = true := by
        simp [List.any_append]
      simp [applyDelta, h, h2]

theorem C7_witness :
    graphAB.nodes.any (fun m => m.id == nodeA.id) = true ∧
    applyDelta graphAB (.node_added nodeA) = graphAB :=
  ⟨by decide, (C7_node_added_idempotent graphAB nodeA).1 (by decide)⟩

/-- A Redux action dispatched by the `useGraph` hook operations (the three
creators imported from `graphActions` at useGraph.js line 3). -/
inductive Action where
  | setGraphLoading (b : Bool)
  | setGraphError (msg : Option String)
  | setGraphData (d : GraphData)
  deriving Repr, DecidableEq

/-- A backend response as consulted by the hook: an optional `error` field
plus the payload fields the operations read (`nodes`, `links`, `paths`). -/
structure Response where
  error : Option String := none
  nodes : Option (List Node) := none
  links : Option (List Link) := none
  paths : Option (List (List String)) := none
  deriving Repr, DecidableEq

/-- JavaScript truthiness of `response.error`: present and non-empty. -/
def errTruthy (r : Response) : Bool :=
  match r.error with
  | none => false
  | some s => s != ""

/-- The message of the thrown `Error(response.error)`. -/
def errMessage (r : Response) : String :=
  r.error.getD ""

/-- The operation `fetchGraphData` (useGraph.js lines 11-35) as the list of store actions
it dispatches for a given response: loading on, error cleared, then either
the transformed data or the error message, then loading off. -/
def fetchGraphData (resp : Response) : List Action :=
  [Action.setGraphLoading true, Action.setGraphError none] ++
    (if errTruthy resp then [Action.setGraphError (some (errMessage resp))]
     else [Action.setGraphData { nodes := resp.nodes.getD [], links := resp.links.getD [] }]) ++
    [Action.setGraphLoading false]

/-- The operation `pruneTree` (lines 69-88): dispatched actions and the returned value
(the response, or null on error). -/
def pruneTree (resp : Response) : List Action × Option Response :=
  if errTruthy resp then
    ([Action.setGraphLoading true, Action.setGraphError (some (errMessage resp)),
      Action.setGraphLoading false], none)
  else
    ([Action.setGraphLoading true,
      Action.setGraphData { nodes := resp.nodes.getD [], links := resp.links.getD [] },
      Action.setGraphLoading false], some resp)

/-- The operation `getSubgraph` (lines 91-104): no dispatch; returns the response, or null
on error (the error is only logged to the console). -/
def getSubgraph (resp : Response) : List Action × Option Response :=
  if errTruthy resp then ([], none) else ([], some resp)

/-- The operation `findPaths` (lines 107-120): no dispatch; returns `response.paths || []`,
or `[]` on error. -/
def findPaths (resp : Response) : List Action × List (List String) :=
  if errTruthy resp then ([], []) else ([], resp.paths.getD [])

/-- The operation `searchNodes` (lines 123-136): no dispatch; returns `response.nodes || []`,
or `[]` on error. -/
def searchNodes (resp : Response) : List Action × List Node :=
  if errTruthy resp then ([], []) else ([], resp.nodes.getD [])

/-- The operation `getNodeDetails` (lines 139-152): no dispatch; returns the response, or
null on error. -/
def getNodeDetails (resp : Response) : List Action × Option Response :=
  if errTruthy resp then ([], none) else ([], some resp)

/-- The operation `exportGraph` (lines 155-168): no dispatch; returns the response, or
null on error. -/
def exportGraph (resp : Response) : List Action × Option Response :=
  if errTruthy resp then ([], none) else ([], some resp)

/-- A response carrying an error. -/
def errResp : Response := { error := some "boom" }

/-- C4 as stated is false: `getSubgraph` on an error response dispatches no
action at all (in particular no store-level error status is set); it merely
logs and returns null. -/
theorem C4_counterexample :
    errTruthy errResp = true ∧
    (getSubgraph errResp).1 = [] ∧ (getSubgraph errResp).2 = none ∧
    ∀ m : Option String, Action.setGraphError m ∉ (getSubgraph errResp).1 := by
  refine ⟨by decide, by decide, by decide, ?_⟩
  intro m hm
  rw [show (getSubgraph errResp).1 = [] from by decide] at hm
  exact List.not_mem_nil _ hm

/-- C4 amended: on a (truthy) error response, `fetchGraphData` and
`pruneTree` dispatch a store-level error status and never dispatch
setGraphData; the five other operations (getSubgraph, findPaths,
searchNodes, getNodeDetails, exportGraph) dispatch nothing at all — the
snapshot is untouched for all seven, but only the first two surface a
store-level error. -/
theorem C4_error_paths (resp : Response) (h : errTruthy resp = true) :
    (Action.setGraphError (some (errMessage resp)) ∈ fetchGraphData resp ∧
      ∀ d, Action.setGraphData d ∉ fetchGraphData resp) ∧
    (Action.setGraphError (some (errMessage resp)) ∈ (pruneTree resp).1 ∧
      (∀ d, Action.setGraphData d ∉ (pruneTree resp).1) ∧ (pruneTree resp).2 = none) ∧
    (getSubgraph resp).1 = [] ∧ (getSubgraph resp).2 = none ∧
    (findPaths resp).1 = [] ∧ (findPaths resp).2 = [] ∧
    (searchNodes resp).1 = [] ∧ (searchNodes resp).2 = [] ∧
    (getNodeDetails resp).1 = [] ∧ (getNodeDetails resp).2 = none ∧
    (exportGraph resp).1 = [] ∧ (exportGraph resp).2 = none := by
  simp [fetchGraphData, pruneTree, getSubgraph, findPaths, searchNodes,
    getNodeDetails, exportGraph, h]

theorem C4_witness :
    errTruthy errResp = true ∧ (getNodeDetails errResp).2 = none :=
  ⟨by decide, (C4_error_paths errResp (by decide)).2.2.2.2.2.2.2.2.2.1⟩

/-- The observable state of the WebSocket connection effect in `useGraph`:
the `isConnected` flag, whether the socket's readyState is OPEN, and the
absolute firing time of a pending `setTimeout(connectWebSocket, 5000)`
reconnect timer, if any. -/
structure WsState where
  isConnected : Bool
  wsOpen : Bool
  pendingReconnectAt : Option Nat
  deriving Repr, DecidableEq

/-- State on mount, before the first connection attempt. -/
def initialWsState : WsState :=
  { isConnected := false, wsOpen := false, pendingReconnectAt := none }

/-- The fixed reconnect delay of `setTimeout(connectWebSocket, 5000)`
(useGraph.js line 249), in milliseconds. -/
def reconnectDelay : Nat := 5000

/-- The handler `ws.onopen` (useGraph.js lines 178-187): flips isConnected to true (and
the socket is now OPEN). -/
def onOpen (s : WsState) : WsState :=
  { s with isConnected := true, wsOpen := true }

/-- The handler `ws.onerror` (lines 239-242): flips isConnected to false; schedules
nothing. -/
def onError (s : WsState) : WsState :=
  { s with isConnected := false }

/-- The handler `ws.onclose` (lines 244-250): flips isConnected to false and schedules
exactly one reconnect attempt `reconnectDelay` after the close. -/
def onClose (now : Nat) (s : WsState) : WsState :=
  { s with
    isConnected := false
    wsOpen := false
    pendingReconnectAt := some (now + reconnectDelay) }

/-- Outcome of one connection attempt. -/
inductive AttemptOutcome where
  | failure
  | success
  deriving Repr, DecidableEq

/-- One `connectWebSocket` attempt at time `now`: a successful attempt fires
`onopen`; a failed channel fires `onerror` followed by `onclose` (a
WebSocket failure always ends in a close event). -/
def attemptStep (now : Nat) (s : WsState) : AttemptOutcome → WsState
  | .success => onOpen s
  | .failure => onClose now (onError s)

/-- The reconnect loop: run the attempt scheduled at `now`; if the handlers
scheduled a reconnect timer the next attempt runs when it fires; after a
success no timer is pending and the loop rests.  Returns the trace of
(attempt time, state after that attempt's events). -/
def runConn (now : Nat) (s : WsState) : List AttemptOutcome → List (Nat × WsState)
  | [] => []
  | o :: rest =>
    let s2 := attemptStep now s o
    match s2.pendingReconnectAt with
    | some t2 => (now, s2) :: runConn t2 { s2 with pendingReconnectAt := none } rest
    | none => [(now, s2)]

theorem range_map_shift (t0 d k : Nat) :
    (List.range (k + 1)).map (fun i => t0 + d * i) =
      t0 :: (List.range k).map (fun i => t0 + d + d * i) := by
  rw [List.range_succ_eq_map, List.map_cons, List.map_map]
  have hfun : ((fun i => t0 + d * i) ∘ Nat.succ) = fun i => t0 + d + d * i := by
    funext i
    simp only [Function.comp_apply, Nat.succ_eq_add_one, Nat.mul_succ]
    ring
  rw [hfun]
  simp

/-- C5: on error or close the flag drops and exactly one reconnect is
scheduled after the fixed delay; n consecutive failures followed by a
success produce attempts at t0, t0+d, ..., t0+n*d (i.e. exactly n reconnect
attempts, each separated by the fixed delay, with no retry bound), and
isConnected is false after every failed attempt and true only once the
final attempt succeeds. -/
theorem C5_reconnect (n t0 : Nat) :
    (∀ (s : WsState) (t : Nat),
      (onClose t (onError s)).isConnected = false ∧
      (onClose t (onError s)).pendingReconnectAt = some (t + reconnectDelay)) ∧
    (runConn t0 initialWsState (List.replicate n .failure ++ [.success])).map Prod.fst =
      (List.range (n + 1)).map (fun i => t0 + reconnectDelay * i) ∧
    (runConn t0 initialWsState (List.replicate n .failure ++ [.success])).map
        (fun p => p.2.isConnected) =
      List.replicate n false ++ [true] := by
  refine ⟨fun s t => ⟨rfl, rfl⟩, ?_⟩
  induction n generalizing t0 with
  | zero =>
    refine ⟨?_, ?_⟩
    · simp [runConn, attemptStep, onOpen, initialWsState, List.range_succ, List.range_zero]
    · simp [runConn, attemptStep, onOpen, initialWsState]
  | succ n ih =>
    have hstep :
        runConn t0 initialWsState (List.replicate (n + 1) .failure ++ [.success]) =
          (t0, { isConnected := false, wsOpen := false,
                 pendingReconnectAt := some (t0 + reconnectDelay) }) ::
            runConn (t0 + reconnectDelay) initialWsState
              (List.replicate n .failure ++ [.success]) := by
      simp [List.replicate_succ, runConn, attemptStep, onClose, onError, initialWsState]
    rw [hstep]
    obtain ⟨ih1, ih2⟩ := ih (t0 + reconnectDelay)
    refine ⟨?_, ?_⟩
    · rw [List.map_cons, ih1]
      conv_rhs => rw [range_map_shift]
    · rw [List.map_cons, ih2, List.replicate_succ, List.cons_append]

/-- C6 attempted as stated: the effect cleanup (useGraph.js lines 261-265)
closes the socket only when it is OPEN — but it contains no clearTimeout,
leaving any pending reconnect timer untouched. -/
def cleanupWs (s : WsState) : WsState :=
  if s.wsOpen then { s with wsOpen := false } else s

/-- C6 fails on the code: tearing down right after a close (socket not open,
reconnect timer pending) leaves the timer pending, so `connectWebSocket`
still runs `reconnectDelay` after teardown and opens a fresh connection.
The first conjunct exhibits the surviving timer; the remaining conjuncts
check the half of the claim the code does satisfy (close only if open). -/
theorem C6_code_bug :
    (cleanupWs (onClose 0 (onError initialWsState))).pendingReconnectAt =
      some reconnectDelay ∧
    (cleanupWs (onOpen initialWsState)).wsOpen = false ∧
    cleanupWs initialWsState = initialWsState := by
  decide

/-- The connected-id set of `highlightConnected` (GraphVisualizer.jsx lines
250-258): one pass over the visible links; `sourceId`/`targetId` are
`link.source.id || link.source`; when one side equals the focus id the other
side is added.  The JS `Set` is modelled as a list (membership only;
insertion order is irrelevant); an unresolvable endpoint (embedded reference
with falsy id) is `none`, matching the raw object the JS code would add,
which never equals any node id. -/
def connectedNodeIds (links : List Link) (focusId : String) : List (Option String) :=
  links.foldr (fun l acc =>
    let sId := resolveEndpoint l.source
    let tId := resolveEndpoint l.target
    let acc1 := if sId = some focusId then tId :: acc else acc
    if tId = some focusId then sId :: acc1 else acc1) []

/-- Node opacity during highlight (lines 261-265): 1 for the focus node and
members of the connected set, 0.3 (= 3/10) otherwise. -/
def highlightNodeOpacity (links : List Link) (focus : Node) (d : Node) : ℚ :=
  if d.id == focus.id || (connectedNodeIds links focus.id).contains (some d.id) then 1
  else 3/10

/-- A link touches the focus node (the test of lines 268-280): either
resolved endpoint equals the focus id. -/
def linkTouchesFocus (focus : Node) (l : Link) : Bool :=
  resolveEndpoint l.source == some focus.id || resolveEndpoint l.target == some focus.id

/-- Link opacity during highlight (lines 268-274): 1 if the link touches the
focus, 0.1 (= 1/10) otherwise. -/
def highlightLinkOpacity (focus : Node) (l : Link) : ℚ :=
  if linkTouchesFocus focus l then 1 else 1/10

/-- Link stroke width during highlight (lines 275-280): 3 if the link
touches the focus, 1 otherwise. -/
def highlightLinkWidth (focus : Node) (l : Link) : ℚ :=
  if linkTouchesFocus focus l then 3 else 1

/-- The reset `removeHighlight` (lines 283-288): every node back to opacity 1. -/
def baselineNodeOpacity : ℚ := 1

/-- The reset `removeHighlight` (lines 283-288): every link back to opacity 0.6. -/
def baselineLinkOpacity : ℚ := 6/10

/-- The reset `removeHighlight` (lines 283-288): link width back to 2 for CALLS and 1
otherwise (the same baseline as initial rendering, line 159). -/
def baselineLinkWidth (l : Link) : ℚ :=
  if l.type == "CALLS" then 2 else 1

/-- The claim's neighbor notion: d is directly linked to the focus node by
some visible link, endpoints normalized to ids per the spec. -/
def specNeighbor (links : List Link) (focus d : Node) : Prop :=
  ∃ l ∈ links,
    (specNormalize l.source = focus.id ∧ specNormalize l.target = d.id) ∨
    (specNormalize l.target = focus.id ∧ specNormalize l.source = d.id)

/-- The claim's incidence notion: the link is incident to the focus node,
endpoints normalized to ids per the spec. -/
def specIncident (focus : Node) (l : Link) : Prop :=
  specNormalize l.source = focus.id ∨ specNormalize l.target = focus.id

theorem connectedNodeIds_cons (l : Link) (ls : List Link) (fid : String) :
    connectedNodeIds (l :: ls) fid =
      (if resolveEndpoint l.target = some fid then [resolveEndpoint l.source] else []) ++
        (if resolveEndpoint l.source = some fid then [resolveEndpoint l.target] else []) ++
        connectedNodeIds ls fid := by
  simp only [connectedNodeIds, List.foldr_cons]
  by_cases hs : resolveEndpoint l.source = some fid <;>
    by_cases ht : resolveEndpoint l.target = some fid <;>
      simp [hs, ht]

theorem mem_connectedNodeIds (links : List Link) (fid : String) (x : Option String) :
    x ∈ connectedNodeIds links fid ↔
      ∃ l ∈ links,
        (resolveEndpoint l.source = some fid ∧ resolveEndpoint l.target = x) ∨
        (resolveEndpoint l.target = some fid ∧ resolveEndpoint l.source = x) := by
  induction links with
  | nil => simp [connectedNodeIds]
  | cons l ls ih =>
    rw [connectedNodeIds_cons]
    constructor
    · intro hx
      rcases List.mem_append.mp hx with hx | hx
      · rcases List.mem_append.mp hx with hx | hx
        · by_cases ht : resolveEndpoint l.target = some fid
          · rw [if_pos ht, List.mem_singleton] at hx
            exact ⟨l, List.mem_cons_self _ _, Or.inr ⟨ht, hx.symm⟩⟩
          · rw [if_neg ht] at hx
            exact absurd hx (List.not_mem_nil _)
        · by_cases hs : resolveEndpoint l.source = some fid
          · rw [if_pos hs, List.mem_singleton] at hx
            exact ⟨l, List.mem_cons_self _ _, Or.inl ⟨hs, hx.symm⟩⟩
          · rw [if_neg hs] at hx
            exact absurd hx (List.not_mem_nil _)
      · obtain ⟨l2, hl2, hcase⟩ := ih.mp hx
        exact ⟨l2, List.mem_cons_of_mem _ hl2, hcase⟩
    · rintro ⟨l2, hl2, hcase⟩
      rcases List.mem_cons.mp hl2 with rfl | hl2
      · rcases hcase with ⟨h1, h2⟩ | ⟨h1, h2⟩
        · refine List.mem_append.mpr (Or.inl (List.mem_append.mpr (Or.inr ?_)))
          rw [if_pos h1, List.mem_singleton]
          exact h2.symm
        · refine List.mem_append.mpr (Or.inl (List.mem_append.mpr (Or.inl ?_)))
          rw [if_pos h1, List.mem_singleton]
          exact h2.symm
      · exact List.mem_append.mpr (Or.inr (ih.mpr ⟨l2, hl2, hcase⟩))

theorem connected_iff_specNeighbor (links : List Link) (focus d : Node)
    (h : ∀ l ∈ links, endpointRefOk l.source = true ∧ endpointRefOk l.target = true) :
    (connectedNodeIds links focus.id).contains (some d.id) = true ↔
      specNeighbor links focus d := by
  have hc : (connectedNodeIds links focus.id).contains (some d.id) = true ↔
      some d.id ∈ connectedNodeIds links focus.id := by
    simp [List.contains, List.elem_iff]
  rw [hc, mem_connectedNodeIds]
  unfold specNeighbor
  constructor
  · rintro ⟨l, hl, hcase⟩
    obtain ⟨hos, hot⟩ := h l hl
    rw [resolveEndpoint_of_ok _ hos, resolveEndpoint_of_ok _ hot] at hcase
    refine ⟨l, hl, ?_⟩
    rcases hcase with ⟨h1, h2⟩ | ⟨h1, h2⟩
    · exact Or.inl ⟨Option.some_injective _ h1, Option.some_injective _ h2⟩
    · exact Or.inr ⟨Option.some_injective _ h1, Option.some_injective _ h2⟩
  · rintro ⟨l, hl, hcase⟩
    obtain ⟨hos, hot⟩ := h l hl
    refine ⟨l, hl, ?_⟩
    rw [resolveEndpoint_of_ok _ hos, resolveEndpoint_of_ok _ hot]
    rcases hcase with ⟨h1, h2⟩ | ⟨h1, h2⟩
    · exact Or.inl ⟨by rw [h1], by rw [h2]⟩
    · exact Or.inr ⟨by rw [h1], by rw [h2]⟩

/-- The focus node of the C8 counterexample. -/
def focusNode : Node := { id := "f", type := "File" }

/-- A neighbor-by-normalization whose id is the empty string. -/
def emptyIdNeighbor : Node := { id := "", type := "Class" }

/-- A visible link from the focus to the empty-id node, target given as an
embedded reference. -/
def focusLink : Link :=
  { source := .idStr "f", target := .ref emptyIdNeighbor, type := "CONTAINS" }

/-- C8 as stated is false: `emptyIdNeighbor` is directly linked to the focus
after normalization, yet `highlightConnected` dims it to 0.3, because
`link.target.id || link.target` yields the raw object for a falsy id and the
object is never equal to the node's id in the connected set. -/
theorem C8_counterexample :
    specNeighbor [focusLink] focusNode emptyIdNeighbor ∧
    emptyIdNeighbor.id ≠ focusNode.id ∧
    highlightNodeOpacity [focusLink] focusNode emptyIdNeighbor ≠ 1 ∧
    highlightNodeOpacity [focusLink] focusNode emptyIdNeighbor = 3/10 := by
  have hcond : (emptyIdNeighbor.id == focusNode.id ||
      (connectedNodeIds [focusLink] focusNode.id).contains (some emptyIdNeighbor.id)) =
        false := by decide
  refine ⟨⟨focusLink, List.mem_cons_self _ _, Or.inl ⟨rfl, rfl⟩⟩, by decide, ?_, ?_⟩
  · simp only [highlightNodeOpacity, hcond]
    norm_num
  · simp only [highlightNodeOpacity, hcond]
    norm_num

/-- C8 amended: for visible links whose embedded endpoint references carry
non-empty ids, a node gets full opacity iff it is the focus node or a
normalized neighbor of it, every other node is dimmed to 0.3; a visible link
gets opacity 1 and width 3 iff it is incident to the focus (else opacity 0.1
and width 1); clearing focus restores node opacity 1, link opacity 0.6 and
a type-dependent link width (2 for CALLS, else 1). -/
theorem C8_highlight (links : List Link) (focus : Node)
    (h : ∀ l ∈ links, endpointRefOk l.source = true ∧ endpointRefOk l.target = true) :
    (∀ d : Node, highlightNodeOpacity links focus d = 1 ↔
      (d.id = focus.id ∨ specNeighbor links focus d)) ∧
    (∀ d : Node, highlightNodeOpacity links focus d ≠ 1 →
      highlightNodeOpacity links focus d = 3/10) ∧
    (∀ l ∈ links,
      (specIncident focus l →
        highlightLinkOpacity focus l = 1 ∧ highlightLinkWidth focus l = 3) ∧
      (¬ specIncident focus l →
        highlightLinkOpacity focus l = 1/10 ∧ highlightLinkWidth focus l = 1)) ∧
    baselineNodeOpacity = 1 ∧ baselineLinkOpacity = 6/10 ∧
    (∀ l : Link, (l.type = "CALLS" → baselineLinkWidth l = 2) ∧
      (l.type ≠ "CALLS" → baselineLinkWidth l = 1)) := by
  refine ⟨?_, ?_, ?_, rfl, rfl, ?_⟩
  · intro d
    have hiff : (d.id == focus.id ||
        (connectedNodeIds links focus.id).contains (some d.id)) = true ↔
          (d.id = focus.id ∨ specNeighbor links focus d) := by
      rw [Bool.or_eq_true, beq_iff_eq, connected_iff_specNeighbor links focus d h]
    by_cases hc : (d.id == focus.id ||
        (connectedNodeIds links focus.id).contains (some d.id)) = true
    · have hval : highlightNodeOpacity links focus d = 1 := by
        simp only [highlightNodeOpacity, hc, if_true]
      exact iff_of_true hval (hiff.mp hc)
    · have hval : highlightNodeOpacity links focus d = 3/10 := by
        rw [Bool.not_eq_true] at hc
        simp only [highlightNodeOpacity, hc, Bool.false_eq_true, if_false]
      refine iff_of_false (by rw [hval]; norm_num) (fun hr => ?_)
      exact absurd (hiff.mpr hr) hc
  · intro d hne
    by_cases hc : (d.id == focus.id ||
        (connectedNodeIds links focus.id).contains (some d.id)) = true
    · exact absurd (by simp only [highlightNodeOpacity, hc, if_true]) hne
    · rw [Bool.not_eq_true] at hc
      simp only [highlightNodeOpacity, hc, Bool.false_eq_true, if_false]
  · intro l hl
    obtain ⟨hos, hot⟩ := h l hl
    have hti : linkTouchesFocus focus l = true ↔ specIncident focus l := by
      simp [linkTouchesFocus, specIncident,
        resolveEndpoint_of_ok _ hos, resolveEndpoint_of_ok _ hot]
    constructor
    · intro hinc
      have ht := hti.mpr hinc
      simp [highlightLinkOpacity, highlightLinkWidth, ht]
    · intro hninc
      have ht : linkTouchesFocus focus l = false := by
        rw [← Bool.not_eq_true]
        exact fun hh => hninc (hti.mp hh)
      simp [highlightLinkOpacity, highlightLinkWidth, ht]
  · intro l
    constructor
    · intro hc
      simp [baselineLinkWidth, hc]
    · intro hn
      have hb : (l.type == "CALLS") = false := by
        simp [hn]
      simp [baselineLinkWidth, hb]

def nodeC : Node := { id := "c", type := "Method" }

def nodeD : Node := { id := "d", type := "Function" }

def nodeE : Node := { id := "e", type := "File" }

/-- The visible links of the spec's five-node highlight scenario: focus "a"
with neighbors "b" and "c", plus an unrelated link between "d" and "e". -/
def fiveLinks : List Link :=
  [ { source := .idStr "a", target := .idStr "b", type := "CONTAINS" },
    { source := .idStr "a", target := .idStr "c", type := "CALLS" },
    { source := .idStr "d", target := .idStr "e", type := "CONTAINS" } ]

theorem C8_witness :
    (∀ l ∈ fiveLinks, endpointRefOk l.source = true ∧ endpointRefOk l.target = true) ∧
    (highlightNodeOpacity fiveLinks nodeA nodeD = 1 ↔
      (nodeD.id = nodeA.id ∨ specNeighbor fiveLinks nodeA nodeD)) :=
  ⟨by decide, (C8_highlight fiveLinks nodeA (by decide)).1 nodeD⟩

end RefactorTool
